import Mathlib

/-!
Shallow embedding of the download-accounting subsystem
(`DownloadCounterService`) of the sotf-web-monorepo repository.

Object-storage keys and other strings are modelled as `List Char`;
timestamps (JavaScript `Date.getTime()` milliseconds) as `Nat`.
The persistent stores (the `DownloadTracker` table and the
`ModVersion` / `LauncherVersion` catalog tables) are modelled as
association lists / lists of records, with the ORM's find/save
operations made explicit.
-/

namespace SOTF

/-- The interval between checking for expired download trackers
(source constant `RESET_INTERVAL = 1000 * 60`, comment says "1 hour"). -/
def RESET_INTERVAL : Nat := 1000 * 60

/-- The amount of time until a download tracker expires
(source constant `TRACKING_DURATION = 1000 * 60`, comment says "1 hour"). -/
def TRACKING_DURATION : Nat := 1000 * 60

/-! ## Path classification

The source classifies object keys with two anchored JavaScript regexes:

  `modVersionRegex      = /^mods\/([a-zA-Z0-9\.\-_]{1,64})\/([a-zA-Z0-9\.\-_]{1,64})\/(.+)$/`
  `launcherVersionRegex = /^launcher\/([a-zA-Z0-9\.\-_]{1,64})\/(.+)$/`

The character class `[a-zA-Z0-9.\-_]` is `isSlugChar`; the `.` of `(.+)`
matches any character except a JavaScript line terminator (`isDotChar`).
Since slug characters exclude `/`, a match decomposes the key uniquely:
each slug group extends exactly to the next `/`, and the final group
takes the whole remainder (which may itself contain `/`).
-/

/-- The regex character class `[a-zA-Z0-9.\-_]` used for slugs. -/
def isSlugChar (c : Char) : Bool :=
  c.isAlpha || c.isDigit || c == '.' || c == '-' || c == '_'

/-- What JavaScript regex `.` matches: any character except the line
terminators `\n`, `\r`, U+2028, U+2029. -/
def isDotChar (c : Char) : Bool :=
  !(c == '\n' || c == '\r' || c == '\u2028' || c == '\u2029')

/-- A slug group match: 1 to 64 characters, all from the slug class. -/
def validSlug (s : List Char) : Bool :=
  decide (1 ≤ s.length) && decide (s.length ≤ 64) && s.all isSlugChar

/-- A `(.+)$` group match: nonempty, no line terminators. -/
def validFileName (f : List Char) : Bool :=
  decide (1 ≤ f.length) && f.all isDotChar

/-- Split a character list at its first `/`: returns the (slash-free)
segment before it and everything after it, or `none` if there is no `/`. -/
def breakSlash : List Char → Option (List Char × List Char)
  | [] => none
  | c :: rest =>
    if c = '/' then some ([], rest)
    else
      match breakSlash rest with
      | some (a, b) => some (c :: a, b)
      | none => none

/-- Strip a literal character-list prefix, returning the remainder. -/
def stripPre : List Char → List Char → Option (List Char)
  | [], l => some l
  | _ :: _, [] => none
  | c :: p, d :: l => if c = d then stripPre p l else none

/-- The literal `mods/` of `modVersionRegex`. -/
def modsLit : List Char := ['m', 'o', 'd', 's', '/']

/-- The literal `launcher/` of `launcherVersionRegex`. -/
def launcherLit : List Char := ['l', 'a', 'u', 'n', 'c', 'h', 'e', 'r', '/']

/-- `key.match(modVersionRegex)`: `some (modSlug, versionSlug)` on a match
(the file-name group is checked but not returned, as in the source, which
only reads groups 1 and 2). -/
def matchModVersion (key : List Char) : Option (List Char × List Char) :=
  match stripPre modsLit key with
  | none => none
  | some rest =>
    match breakSlash rest with
    | none => none
    | some (s1, r1) =>
      match breakSlash r1 with
      | none => none
      | some (s2, f) =>
        if validSlug s1 && validSlug s2 && validFileName f then some (s1, s2)
        else none

/-- `key.match(launcherVersionRegex)`: `some versionSlug` on a match. -/
def matchLauncherVersion (key : List Char) : Option (List Char) :=
  match stripPre launcherLit key with
  | none => none
  | some rest =>
    match breakSlash rest with
    | none => none
    | some (s1, f) =>
      if validSlug s1 && validFileName f then some s1
      else none

/-- A classified download target (transient, produced by classification). -/
inductive DownloadTarget where
  | modVersion (modSlug versionSlug : List Char)
  | launcherVersion (versionSlug : List Char)
  | unrecognized
  deriving DecidableEq, Repr

/-- The classification performed by `countDownload`: try the mod-version
regex first, then the launcher-version regex, else unrecognized. -/
def classifyKey (key : List Char) : DownloadTarget :=
  match matchModVersion key with
  | some (a, b) => .modVersion a b
  | none =>
    match matchLauncherVersion key with
    | some v => .launcherVersion v
    | none => .unrecognized

/-! ## Data model -/

/-- The shape of an `s3:ObjectAccessed:Get` notification that the service
reads: the object key and the source host address. -/
structure Notification where
  key : List Char
  host : List Char
  deriving DecidableEq, Repr

/-- A `ModVersion` catalog row, restricted to the fields the service
touches (`findBy({modId, version})` and `downloadCount`). -/
structure ModVersion where
  modId : List Char
  version : List Char
  downloadCount : Nat
  deriving DecidableEq, Repr

/-- A `LauncherVersion` catalog row, restricted to the fields the service
touches (`findBy({version})` and `downloadCount`). -/
structure LauncherVersion where
  version : List Char
  downloadCount : Nat
  deriving DecidableEq, Repr

/-- The `DownloadTracker` table: rows `((path, ipHash), expiresAt)`,
unique on `(path, ipHash)`. -/
abbrev Trackers : Type := List ((List Char × List Char) × Nat)

/-- The whole persistent state the service reads and writes. -/
structure ServiceState where
  trackers : Trackers
  modVersions : List ModVersion
  launcherVersions : List LauncherVersion
  deriving DecidableEq, Repr

/-- The log lines the service can emit while handling a notification. -/
inductive LogEntry where
  | unknownFile (key : List Char)
  | nonexistantModVersion (modSlug versionSlug : List Char)
  | nonexistantLauncherVersion (versionSlug : List Char)
  | couldNotUpdateModVersion (modSlug versionSlug : List Char)
  | couldNotUpdateLauncherVersion (versionSlug : List Char)
  deriving DecidableEq, Repr

/-! ## Dedup tracker store -/

/-- `DownloadTracker.findOne({where: {path, ipHash}})`. -/
def findTracker (ts : Trackers) (path ipHash : List Char) : Option Nat :=
  match ts with
  | [] => none
  | ((p, ih), e) :: rest =>
    if p = path ∧ ih = ipHash then some e else findTracker rest path ipHash

/-- `DownloadTracker.save`: upsert on the unique key `(path, ipHash)`. -/
def saveTracker (ts : Trackers) (path ipHash : List Char) (e : Nat) : Trackers :=
  match ts with
  | [] => [((path, ipHash), e)]
  | ((p, ih), e') :: rest =>
    if p = path ∧ ih = ipHash then ((p, ih), e) :: rest
    else ((p, ih), e') :: saveTracker rest path ipHash e

/-- The tracker look-up/refresh step of `processNotification`
(lines 142-160): returns whether the visit counts as a fresh download,
and the tracker table afterwards.  A missing row is fresh; an existing
row is fresh exactly when `tracker.expiresAt.getTime() < now` (strict,
as in the source); in every case the row is written back with
`expiresAt = now + TRACKING_DURATION`. -/
def observe (ts : Trackers) (path ipHash : List Char) (now : Nat) :
    Bool × Trackers :=
  let newExpiry := now + TRACKING_DURATION
  match findTracker ts path ipHash with
  | none => (true, saveTracker ts path ipHash newExpiry)
  | some expiresAt => (decide (expiresAt < now), saveTracker ts path ipHash newExpiry)

/-- `removeExpiredTrackers`: the sweep body runs
`DownloadTracker.find({where: {expiresAt: MoreThan(new Date())}})` —
a `find`, not a delete, and with `MoreThan` (strictly greater than now).
We return the unchanged table together with the rows the query selects. -/
def removeExpiredTrackers (ts : Trackers) (now : Nat) :
    Trackers × Trackers :=
  (ts, ts.filter (fun r => decide (now < r.2)))

/-! ## Counter updater -/

/-- `ModVersion.findBy({modId, version})`. -/
def ModVersion.findBy (mods : List ModVersion) (modSlug versionSlug : List Char) :
    List ModVersion :=
  mods.filter (fun m => decide (m.modId = modSlug) && decide (m.version = versionSlug))

/-- `LauncherVersion.findBy({version})`. -/
def LauncherVersion.findBy (ls : List LauncherVersion) (versionSlug : List Char) :
    List LauncherVersion :=
  ls.filter (fun l => decide (l.version = versionSlug))

/-- `ModVersion.save` of a row whose `downloadCount` was bumped: replace
the row with the same `(modId, version)` identity. -/
def saveModVersion (mods : List ModVersion) (m : ModVersion) : List ModVersion :=
  mods.map (fun m' =>
    if m'.modId = m.modId ∧ m'.version = m.version then m else m')

/-- `LauncherVersion.save` of a bumped row. -/
def saveLauncherVersion (ls : List LauncherVersion) (l : LauncherVersion) :
    List LauncherVersion :=
  ls.map (fun l' => if l'.version = l.version then l else l')

/-- `countModVersionDownload` exactly as written in the source: find the
matching rows; **if the result list is empty** (`modVersions.length <= 0`)
log the "nonexistant mod" error and then iterate that (empty) list,
incrementing and saving each element; if rows were found, do nothing. -/
def countModVersionDownload (mods : List ModVersion)
    (modSlug versionSlug : List Char) : List ModVersion × List LogEntry :=
  let modVersions := ModVersion.findBy mods modSlug versionSlug
  if modVersions.length ≤ 0 then
    let mods' := modVersions.foldl
      (fun acc m => saveModVersion acc { m with downloadCount := m.downloadCount + 1 })
      mods
    (mods', [.nonexistantModVersion modSlug versionSlug])
  else
    (mods, [])

/-- `countLauncherVersionDownload`, with the same inverted emptiness guard
as `countModVersionDownload`. -/
def countLauncherVersionDownload (ls : List LauncherVersion)
    (versionSlug : List Char) : List LauncherVersion × List LogEntry :=
  let launcherVersions := LauncherVersion.findBy ls versionSlug
  if launcherVersions.length ≤ 0 then
    let ls' := launcherVersions.foldl
      (fun acc l => saveLauncherVersion acc { l with downloadCount := l.downloadCount + 1 })
      ls
    (ls', [.nonexistantLauncherVersion versionSlug])
  else
    (ls, [])

/-- `countDownload`: classify the key (mod regex first, then launcher
regex) and dispatch; an unrecognized key is logged and dropped. -/
def countDownload (st : ServiceState) (key : List Char) :
    ServiceState × List LogEntry :=
  match classifyKey key with
  | .modVersion a b =>
    let (mods', log) := countModVersionDownload st.modVersions a b
    ({ st with modVersions := mods' }, log)
  | .launcherVersion v =>
    let (ls', log) := countLauncherVersionDownload st.launcherVersions v
    ({ st with launcherVersions := ls' }, log)
  | .unrecognized => (st, [.unknownFile key])

/-! ## Per-notification pipeline

`processNotification` hashes the source host with a salted MD5
(`createHash('md5').update(IP_HASH_SALT).update(ip).digest('hex')`).
MD5 comes from an external crypto library, so the whole development is
parametric in the fingerprint function `hashFn`, standing for
`ip ↦ hex(md5(salt ++ ip))`; every theorem below holds for an arbitrary
such function. -/

/-- `processNotification`: fingerprint the host, look up / refresh the
tracker row for `(key, ipHash)` (the `observe` step above), and when the
visit is fresh, run `countDownload`.  `now` is the handler's observation
time (`new Date()`). -/
def processNotification (hashFn : List Char → List Char)
    (now : Nat) (st : ServiceState) (notif : Notification) :
    ServiceState × List LogEntry :=
  let path := notif.key
  let ipHash := hashFn notif.host
  let (fresh, ts') := observe st.trackers path ipHash now
  let st' := { st with trackers := ts' }
  if fresh then countDownload st' path else (st', [])

/-! ## Storage-failure model

The model above assumes every storage operation succeeds.  To reason
about error propagation we add a second, fault-injecting version that
mirrors the source's `try`/`catch` structure exactly:

* `DownloadTracker.findOne` and the `await DownloadTracker.save(...)` of
  the create branch run directly inside `processNotification`, which has
  no `try`/`catch` — a rejection there makes the handler's promise
  reject (`Except.error`);
* the `DownloadTracker.save(tracker)` of the update branch is not
  awaited, so its failure never affects the handler's control flow (the
  row update is simply lost);
* `countModVersionDownload` / `countLauncherVersionDownload` wrap their
  catalog access in `try { ... } catch { console.error(...) }`, so a
  catalog failure is logged and swallowed.
-/

/-- Which storage operations fail during one notification's processing. -/
structure Faults where
  trackerFindOne : Bool
  trackerSave : Bool
  modFindBy : Bool
  launcherFindBy : Bool
  deriving DecidableEq, Repr

/-- No storage operation fails. -/
def noFaults : Faults := ⟨false, false, false, false⟩

/-- The error a rejected storage promise carries out of the handler. -/
inductive StorageErr where
  | trackerFindOne
  | trackerSave
  deriving DecidableEq, Repr

/-- `countModVersionDownload` under faults: the `try`/`catch` catches the
`ModVersion.findBy` failure, logs "Could not update ...", and returns. -/
def countModVersionDownloadE (f : Faults) (mods : List ModVersion)
    (modSlug versionSlug : List Char) : List ModVersion × List LogEntry :=
  if f.modFindBy then (mods, [.couldNotUpdateModVersion modSlug versionSlug])
  else countModVersionDownload mods modSlug versionSlug

/-- `countLauncherVersionDownload` under faults. -/
def countLauncherVersionDownloadE (f : Faults) (ls : List LauncherVersion)
    (versionSlug : List Char) : List LauncherVersion × List LogEntry :=
  if f.launcherFindBy then (ls, [.couldNotUpdateLauncherVersion versionSlug])
  else countLauncherVersionDownload ls versionSlug

/-- `countDownload` under faults (classification itself cannot fail). -/
def countDownloadE (f : Faults) (st : ServiceState) (key : List Char) :
    ServiceState × List LogEntry :=
  match classifyKey key with
  | .modVersion a b =>
    let (mods', log) := countModVersionDownloadE f st.modVersions a b
    ({ st with modVersions := mods' }, log)
  | .launcherVersion v =>
    let (ls', log) := countLauncherVersionDownloadE f st.launcherVersions v
    ({ st with launcherVersions := ls' }, log)
  | .unrecognized => (st, [.unknownFile key])

/-- `processNotification` under faults.  `Except.error` is the handler's
promise rejecting — an error that escaped the per-notification handler. -/
def processNotificationE (f : Faults) (hashFn : List Char → List Char)
    (now : Nat) (st : ServiceState) (notif : Notification) :
    Except StorageErr (ServiceState × List LogEntry) :=
  let path := notif.key
  let ipHash := hashFn notif.host
  let newExpiry := now + TRACKING_DURATION
  if f.trackerFindOne then .error .trackerFindOne
  else
    match findTracker st.trackers path ipHash with
    | none =>
      if f.trackerSave then .error .trackerSave
      else
        let st' := { st with trackers := saveTracker st.trackers path ipHash newExpiry }
        .ok (countDownloadE f st' path)
    | some expiresAt =>
      let ts' :=
        if f.trackerSave then st.trackers
        else saveTracker st.trackers path ipHash newExpiry
      let st' := { st with trackers := ts' }
      if expiresAt < now then .ok (countDownloadE f st' path) else .ok (st', [])

/-- Whether a handler run resolved (`.ok`) rather than rejected. -/
def handlerOk : Except StorageErr (ServiceState × List LogEntry) → Bool
  | .ok _ => true
  | .error _ => false

/-! ## Service construction and startup

The constructor reads `cfg.storage.{accessKey, secretKey, endPoint}` and
builds the MinIO client under the condition
`accessKey && secretKey && !endPoint` (JavaScript truthiness: a missing
or empty string is falsy); otherwise it logs the missing-config warning
and leaves the client `null`.  `startListening` returns immediately
(after a log line) when the client is `null`; otherwise it subscribes to
bucket notifications and schedules the sweep interval.
-/

/-- The storage part of the application config. -/
structure StorageCfg where
  accessKey : Option (List Char)
  secretKey : Option (List Char)
  endPoint : Option (List Char)
  deriving DecidableEq, Repr

/-- JavaScript truthiness of an optional string config value. -/
def truthy : Option (List Char) → Bool
  | none => false
  | some s => !s.isEmpty

/-- Whether the constructor builds a storage client:
the source's condition `accessKey && secretKey && !endPoint`. -/
def clientConstructed (cfg : StorageCfg) : Bool :=
  truthy cfg.accessKey && truthy cfg.secretKey && !truthy cfg.endPoint

/-- What `startListening` does, given whether a client exists:
`(subscribed, sweepScheduled)` — both happen iff the client is non-null. -/
def startListening (hasClient : Bool) : Bool × Bool :=
  if hasClient then (true, true) else (false, false)

/-! ## Spec-side key shapes

These two definitions follow the specification's words for the
recognized key formats (`mods/<modSlug>/<versionSlug>/<filename>` and
`launcher/<versionSlug>/<filename>`, slugs 1-64 characters from letters,
digits, dot, hyphen, underscore, the file name read as the regex
`(.+)$`: nonempty, no line terminator).  They are compared against the
classifier derived from the source. -/

/-- The spec's mod-version key shape, with the two slugs it carries. -/
def specModKeyShape (key a b : List Char) : Prop :=
  ∃ f, key = modsLit ++ a ++ ['/'] ++ b ++ ['/'] ++ f ∧
    validSlug a = true ∧ validSlug b = true ∧ validFileName f = true

/-- The spec's launcher-version key shape, with the slug it carries. -/
def specLauncherKeyShape (key v : List Char) : Prop :=
  ∃ f, key = launcherLit ++ v ++ ['/'] ++ f ∧
    validSlug v = true ∧ validFileName f = true

/-! ## Helper lemmas -/

theorem stripPre_sound : ∀ (p l r : List Char),
    stripPre p l = some r → l = p ++ r := by
  intro p
  induction p with
  | nil =>
    intro l r h
    simp [stripPre] at h
    simp [h]
  | cons c p ih =>
    intro l r h
    cases l with
    | nil => simp [stripPre] at h
    | cons d l =>
      simp only [stripPre] at h
      split at h
      · next hcd =>
        subst hcd
        simp [ih l r h]
      · exact absurd h (by simp)

theorem stripPre_complete : ∀ (p r : List Char),
    stripPre p (p ++ r) = some r := by
  intro p
  induction p with
  | nil => intro r; simp [stripPre]
  | cons c p ih => intro r; simp [stripPre, ih]

theorem breakSlash_sound : ∀ (l a r : List Char),
    breakSlash l = some (a, r) → l = a ++ ['/'] ++ r ∧ '/' ∉ a := by
  intro l
  induction l with
  | nil => intro a r h; simp [breakSlash] at h
  | cons c rest ih =>
    intro a r h
    simp only [breakSlash] at h
    split at h
    · next hc =>
      subst hc
      simp only [Option.some.injEq, Prod.mk.injEq] at h
      obtain ⟨rfl, rfl⟩ := h
      simp
    · next hc =>
      cases hb : breakSlash rest with
      | none => rw [hb] at h; simp at h
      | some pr =>
        obtain ⟨a', r'⟩ := pr
        rw [hb] at h
        simp only [Option.some.injEq, Prod.mk.injEq] at h
        obtain ⟨hrest, hmem⟩ := ih a' r' hb
        refine ⟨?_, ?_⟩
        · rw [← h.1, ← h.2, hrest]; simp
        · rw [← h.1]
          intro hmem'
          rcases List.mem_cons.mp hmem' with h1 | h2
          · exact hc h1.symm
          · exact hmem h2

theorem breakSlash_complete : ∀ (a r : List Char), '/' ∉ a →
    breakSlash (a ++ ['/'] ++ r) = some (a, r) := by
  intro a
  induction a with
  | nil => intro r _; simp [breakSlash]
  | cons c a ih =>
    intro r h
    have hc : ¬(c = '/') := fun hc => h (by simp [hc])
    have ha : '/' ∉ a := fun hm => h (List.mem_cons_of_mem _ hm)
    show breakSlash (c :: (a ++ ['/'] ++ r)) = some (c :: a, r)
    simp only [breakSlash, if_neg hc]
    rw [ih r ha]

theorem slug_no_slash : ∀ (s : List Char), validSlug s = true → '/' ∉ s := by
  intro s hs hm
  have hall : s.all isSlugChar = true := by
    simp only [validSlug, Bool.and_eq_true] at hs
    exact hs.2
  have : isSlugChar '/' = true := List.all_eq_true.mp hall '/' hm
  simp [isSlugChar] at this

theorem findTracker_saveTracker_self : ∀ (ts : Trackers) (p ih : List Char) (e : Nat),
    findTracker (saveTracker ts p ih e) p ih = some e := by
  intro ts p ih e
  induction ts with
  | nil => simp [saveTracker, findTracker]
  | cons head rest irec =>
    obtain ⟨⟨q, jh⟩, e'⟩ := head
    by_cases h : q = p ∧ jh = ih
    · simp [saveTracker, findTracker, h]
    · simp [saveTracker, findTracker, h, irec]

theorem findTracker_saveTracker_other : ∀ (ts : Trackers) (p ih p' ih' : List Char) (e : Nat),
    ¬(p' = p ∧ ih' = ih) →
    findTracker (saveTracker ts p ih e) p' ih' = findTracker ts p' ih' := by
  intro ts p ih p' ih' e hne
  induction ts with
  | nil =>
    simp only [saveTracker, findTracker]
    rw [if_neg]
    intro ⟨h1, h2⟩
    exact hne ⟨h1.symm, h2.symm⟩
  | cons head rest irec =>
    obtain ⟨⟨q, jh⟩, e'⟩ := head
    simp only [saveTracker]
    by_cases h : q = p ∧ jh = ih
    · have hq : ¬(q = p' ∧ jh = ih') := fun hq =>
        hne ⟨hq.1.symm.trans h.1, hq.2.symm.trans h.2⟩
      rw [if_pos h]
      simp only [findTracker]
      rw [if_neg hq, if_neg hq]
    · rw [if_neg h]
      simp only [findTracker]
      by_cases hq : q = p' ∧ jh = ih'
      · rw [if_pos hq, if_pos hq]
      · rw [if_neg hq, if_neg hq, irec]

theorem countDownload_trackers : ∀ (st : ServiceState) (key : List Char),
    (countDownload st key).1.trackers = st.trackers := by
  intro st key
  unfold countDownload
  cases classifyKey key <;> simp

theorem matchModVersion_iff : ∀ (key a b : List Char),
    matchModVersion key = some (a, b) ↔ specModKeyShape key a b := by
  intro key a b
  constructor
  · intro h
    unfold matchModVersion at h
    cases hp : stripPre modsLit key with
    | none => rw [hp] at h; simp at h
    | some rest =>
      rw [hp] at h
      simp only [] at h
      cases hb1 : breakSlash rest with
      | none => rw [hb1] at h; simp at h
      | some pr1 =>
        obtain ⟨s1, r1⟩ := pr1
        rw [hb1] at h
        simp only [] at h
        cases hb2 : breakSlash r1 with
        | none => rw [hb2] at h; simp at h
        | some pr2 =>
          obtain ⟨s2, f⟩ := pr2
          rw [hb2] at h
          simp only [] at h
          split at h
          · next hcond =>
            simp only [Option.some.injEq, Prod.mk.injEq] at h
            obtain ⟨h1, h2⟩ := h
            subst h1
            subst h2
            simp only [Bool.and_eq_true] at hcond
            obtain ⟨⟨hs1, hs2⟩, hf⟩ := hcond
            have hk := stripPre_sound _ _ _ hp
            have hr1 := (breakSlash_sound _ _ _ hb1).1
            have hr2 := (breakSlash_sound _ _ _ hb2).1
            refine ⟨f, ?_, hs1, hs2, hf⟩
            rw [hk, hr1, hr2]
            simp
          · simp at h
  · rintro ⟨f, hkey, hs1, hs2, hf⟩
    subst hkey
    unfold matchModVersion
    rw [show modsLit ++ a ++ ['/'] ++ b ++ ['/'] ++ f =
        modsLit ++ (a ++ ['/'] ++ (b ++ ['/'] ++ f)) by simp]
    rw [stripPre_complete]
    simp only []
    rw [breakSlash_complete a (b ++ ['/'] ++ f) (slug_no_slash a hs1)]
    simp only []
    rw [breakSlash_complete b f (slug_no_slash b hs2)]
    simp [hs1, hs2, hf]

theorem matchLauncherVersion_iff : ∀ (key v : List Char),
    matchLauncherVersion key = some v ↔ specLauncherKeyShape key v := by
  intro key v
  constructor
  · intro h
    unfold matchLauncherVersion at h
    cases hp : stripPre launcherLit key with
    | none => rw [hp] at h; simp at h
    | some rest =>
      rw [hp] at h
      simp only [] at h
      cases hb1 : breakSlash rest with
      | none => rw [hb1] at h; simp at h
      | some pr1 =>
        obtain ⟨s1, f⟩ := pr1
        rw [hb1] at h
        simp only [] at h
        split at h
        · next hcond =>
          simp only [Option.some.injEq] at h
          subst h
          simp only [Bool.and_eq_true] at hcond
          obtain ⟨hs1, hf⟩ := hcond
          have hk := stripPre_sound _ _ _ hp
          have hr1 := (breakSlash_sound _ _ _ hb1).1
          refine ⟨f, ?_, hs1, hf⟩
          rw [hk, hr1]
          simp
        · simp at h
  · rintro ⟨f, hkey, hs1, hf⟩
    subst hkey
    unfold matchLauncherVersion
    rw [show launcherLit ++ v ++ ['/'] ++ f =
        launcherLit ++ (v ++ ['/'] ++ f) by simp]
    rw [stripPre_complete]
    simp only []
    rw [breakSlash_complete v f (slug_no_slash v hs1)]
    simp [hs1, hf]

theorem matchModVersion_none_iff : ∀ (key : List Char),
    matchModVersion key = none ↔ ∀ a b, ¬ specModKeyShape key a b := by
  intro key
  constructor
  · intro h a b hs
    have hm := (matchModVersion_iff key a b).2 hs
    rw [h] at hm
    exact Option.noConfusion hm
  · intro h
    cases hm : matchModVersion key with
    | none => rfl
    | some pr =>
      obtain ⟨a, b⟩ := pr
      exact absurd ((matchModVersion_iff key a b).1 hm) (h a b)

theorem matchLauncherVersion_none_iff : ∀ (key : List Char),
    matchLauncherVersion key = none ↔ ∀ v, ¬ specLauncherKeyShape key v := by
  intro key
  constructor
  · intro h v hs
    have hm := (matchLauncherVersion_iff key v).2 hs
    rw [h] at hm
    exact Option.noConfusion hm
  · intro h
    cases hm : matchLauncherVersion key with
    | none => rfl
    | some v => exact absurd ((matchLauncherVersion_iff key v).1 hm) (h v)

/-- A launcher-shaped key starts with `l`, so it never matches the
mod-version regex (whose literal starts with `m`). -/
theorem specLauncher_matchMod_none : ∀ (key v : List Char),
    specLauncherKeyShape key v → matchModVersion key = none := by
  rintro key v ⟨f, hkey, _, _⟩
  subst hkey
  simp [matchModVersion, modsLit, launcherLit, stripPre, List.cons_append]

theorem classifyKey_mod_iff : ∀ (key a b : List Char),
    classifyKey key = .modVersion a b ↔ matchModVersion key = some (a, b) := by
  intro key a b
  unfold classifyKey
  cases hm : matchModVersion key with
  | some pr => obtain ⟨x, y⟩ := pr; simp
  | none =>
    cases hl : matchLauncherVersion key with
    | some v => simp
    | none => simp

theorem classifyKey_launcher_iff : ∀ (key v : List Char),
    classifyKey key = .launcherVersion v ↔
      matchModVersion key = none ∧ matchLauncherVersion key = some v := by
  intro key v
  unfold classifyKey
  cases hm : matchModVersion key with
  | some pr => obtain ⟨x, y⟩ := pr; simp
  | none =>
    cases hl : matchLauncherVersion key with
    | some w => simp
    | none => simp

theorem classifyKey_unrecognized_iff : ∀ (key : List Char),
    classifyKey key = .unrecognized ↔
      matchModVersion key = none ∧ matchLauncherVersion key = none := by
  intro key
  unfold classifyKey
  cases hm : matchModVersion key with
  | some pr => obtain ⟨x, y⟩ := pr; simp
  | none =>
    cases hl : matchLauncherVersion key with
    | some w => simp
    | none => simp

theorem processNotification_trackers : ∀ (hashFn : List Char → List Char)
    (now : Nat) (st : ServiceState) (notif : Notification),
    (processNotification hashFn now st notif).1.trackers =
      saveTracker st.trackers notif.key (hashFn notif.host) (now + TRACKING_DURATION) := by
  intro hashFn now st notif
  unfold processNotification observe
  cases hft : findTracker st.trackers notif.key (hashFn notif.host) with
  | none => simp [hft, countDownload_trackers]
  | some e =>
    by_cases he : e < now <;> simp [hft, he, countDownload_trackers]

/-! ## Claims -/

/-- C9: The claim says `TRACKING_DURATION` and `RESET_INTERVAL` each
default to one hour (3,600,000 ms).  The source sets both to
`1000 * 60` = 60,000 ms (one minute) while its own comments on both
constants say "1 hour" — the code contradicts its own documentation. -/
theorem c9_constants_are_one_minute :
    RESET_INTERVAL = 60000 ∧ TRACKING_DURATION = 60000 ∧
    RESET_INTERVAL ≠ 3600000 ∧ TRACKING_DURATION ≠ 3600000 := by
  decide

/-- C5: The claim says the sweep selects for removal exactly the rows
with `expiresAt ≤ now`.  The source's `removeExpiredTrackers` runs
`find({where: {expiresAt: MoreThan(new Date())}})`: it selects exactly
the rows whose expiry is strictly in the **future**, deletes nothing,
and leaves the table unchanged.  At `now = 50` the lapsed row (expiry
10) is not selected while the future row (expiry 100) is. -/
theorem c5_sweep_selects_future_rows :
    (10 : Nat) ≤ 50 ∧ (50 : Nat) < 100 ∧
    removeExpiredTrackers [((['p'], ['h']), 10), ((['q'], ['h']), 100)] 50 =
      ([((['p'], ['h']), 10), ((['q'], ['h']), 100)], [((['q'], ['h']), 100)]) := by
  decide

/-- C6: The claim says a client is constructed exactly when access key,
secret key and endpoint are all present.  The source's condition is
`accessKey && secretKey && !endPoint`: with all three present no client
is built (degraded mode), and with the endpoint missing a client *is*
built (passing the absent endpoint along).  `startListening` itself does
follow the claim: it subscribes and schedules the sweep iff a client
exists. -/
theorem c6_constructor_condition_inverted :
    clientConstructed ⟨some ['a'], some ['s'], some ['e']⟩ = false ∧
    clientConstructed ⟨some ['a'], some ['s'], none⟩ = true ∧
    startListening false = (false, false) ∧
    startListening true = (true, true) := by
  decide

/-- C1: The claim says a first-occurrence notification for
`mods/super-mod/1.2.0/file.zip` takes the matching mod version's
`downloadCount` from 0 to 1.  In the source the increment loop sits
inside `if (!modVersions || modVersions.length <= 0)`, so when the
catalog row *is* found nothing is incremented at all: the count stays 0
and no log line is emitted, even though the key classifies correctly and
the visit is fresh. -/
theorem c1_first_download_not_counted :
    classifyKey "mods/super-mod/1.2.0/file.zip".toList =
      .modVersion "super-mod".toList "1.2.0".toList ∧
    (processNotification (fun ip => ip) 1000
        ⟨[], [⟨"super-mod".toList, "1.2.0".toList, 0⟩], []⟩
        ⟨"mods/super-mod/1.2.0/file.zip".toList, "1.2.3.4".toList⟩).1.modVersions =
      [⟨"super-mod".toList, "1.2.0".toList, 0⟩] ∧
    (processNotification (fun ip => ip) 1000
        ⟨[], [⟨"super-mod".toList, "1.2.0".toList, 0⟩], []⟩
        ⟨"mods/super-mod/1.2.0/file.zip".toList, "1.2.3.4".toList⟩).2 = [] :=
  ⟨rfl, rfl, rfl⟩

/-- C8: The claim says delivering the identical notification twice
within one tracking window increments the target's `downloadCount` by
exactly 1 in total.  Because of the inverted emptiness guard (see C1)
the count is incremented by 0 in total: after two identical deliveries
at `now = 1000` and `now = 2000` (within the 60,000 ms window) the
matching row still has `downloadCount = 0`. -/
theorem c8_duplicate_delivery_counts_zero :
    (2000 : Nat) < 1000 + TRACKING_DURATION ∧
    (processNotification (fun ip => ip) 2000
        (processNotification (fun ip => ip) 1000
          ⟨[], [⟨"super-mod".toList, "1.2.0".toList, 0⟩], []⟩
          ⟨"mods/super-mod/1.2.0/file.zip".toList, "1.2.3.4".toList⟩).1
        ⟨"mods/super-mod/1.2.0/file.zip".toList, "1.2.3.4".toList⟩).1.modVersions =
      [⟨"super-mod".toList, "1.2.0".toList, 0⟩] :=
  ⟨by decide, rfl⟩

/-- C2: counterexample to the boundary case of the claim.  The claim
says an observe at the exact instant `now = expiresAt` is judged fresh
(`now >= expiresAt`).  The source compares strictly
(`tracker.expiresAt.getTime() < now`): with an existing row whose
`expiresAt` is 100, an observe at `now = 100` is **not** fresh. -/
theorem c2_boundary_not_fresh :
    (100 : Nat) ≥ 100 ∧
    (observe [((['p'], ['h']), 100)] ['p'] ['h'] 100).1 = false := by
  decide

/-- C2 (amended): `observe` is fresh exactly when no tracker row exists
or the existing row satisfies `expiresAt < now` (strictly — the boundary
`now = expiresAt` is not fresh), and in every case the row afterwards
exists with `expiresAt = now + TRACKING_DURATION`. -/
theorem c2_observe_freshness :
    ∀ (ts : Trackers) (p ih : List Char) (now : Nat),
    ((observe ts p ih now).1 = true ↔
      findTracker ts p ih = none ∨ ∃ e, findTracker ts p ih = some e ∧ e < now) ∧
    findTracker (observe ts p ih now).2 p ih = some (now + TRACKING_DURATION) := by
  intro ts p ih now
  unfold observe
  cases hft : findTracker ts p ih with
  | none => simp [hft, findTracker_saveTracker_self]
  | some e => simp [hft, findTracker_saveTracker_self]

/-- C2 witness: on a concrete lapsed row (`expiresAt = 5 < now = 10`)
the theorem yields freshness and the refreshed expiry. -/
theorem c2_observe_freshness_witness :
    ((observe [((['p'], ['h']), 5)] ['p'] ['h'] 10).1 = true ↔
      findTracker [((['p'], ['h']), 5)] ['p'] ['h'] = none ∨
      ∃ e, findTracker [((['p'], ['h']), 5)] ['p'] ['h'] = some e ∧ e < 10) ∧
    findTracker (observe [((['p'], ['h']), 5)] ['p'] ['h'] 10).2 ['p'] ['h'] =
      some (10 + TRACKING_DURATION) :=
  c2_observe_freshness [((['p'], ['h']), 5)] ['p'] ['h'] 10

/-- Helper: an unrecognized key makes `countDownload` log and stop. -/
theorem countDownload_unrecognized : ∀ (st : ServiceState) (key : List Char),
    classifyKey key = .unrecognized →
    countDownload st key = (st, [.unknownFile key]) := by
  intro st key h
  unfold countDownload
  rw [h]

/-- Helper: a run of `processNotification` either counts (fresh) or only
refreshes the tracker row; in both cases the tracker table becomes the
upsert of the observed pair. -/
theorem processNotification_cases : ∀ (hashFn : List Char → List Char)
    (now : Nat) (st : ServiceState) (notif : Notification),
    processNotification hashFn now st notif =
      countDownload
        { st with trackers := (saveTracker st.trackers notif.key (hashFn notif.host)
            (now + TRACKING_DURATION)) } notif.key ∨
    processNotification hashFn now st notif =
      ({ st with trackers := (saveTracker st.trackers notif.key (hashFn notif.host)
          (now + TRACKING_DURATION)) }, []) := by
  intro hashFn now st notif
  unfold processNotification observe
  cases hft : findTracker st.trackers notif.key (hashFn notif.host) with
  | none => left; simp [hft]
  | some e =>
    by_cases he : e < now
    · left; simp [hft, he]
    · right; simp [hft, he]

/-- Helper: after an `observe`, the observed pair's row holds the full
refreshed window. -/
theorem observe_expiry : ∀ (ts : Trackers) (p ih : List Char) (now : Nat),
    findTracker (observe ts p ih now).2 p ih = some (now + TRACKING_DURATION) := by
  intro ts p ih now
  unfold observe
  cases hft : findTracker ts p ih <;> simp [hft, findTracker_saveTracker_self]

/-- Helper: `processNotification` either observes a fresh visit and
counts, or observes a non-fresh one and returns silently; in both cases
the tracker table becomes the `observe` result. -/
theorem processNotification_fresh_cases : ∀ (hashFn : List Char → List Char)
    (now : Nat) (st : ServiceState) (notif : Notification),
    ((observe st.trackers notif.key (hashFn notif.host) now).1 = true ∧
     processNotification hashFn now st notif =
       countDownload
         { st with trackers := ((observe st.trackers notif.key (hashFn notif.host) now).2) }
         notif.key) ∨
    ((observe st.trackers notif.key (hashFn notif.host) now).1 = false ∧
     processNotification hashFn now st notif =
       ({ st with trackers := ((observe st.trackers notif.key (hashFn notif.host) now).2) },
        [])) := by
  intro hashFn now st notif
  unfold processNotification observe
  cases hft : findTracker st.trackers notif.key (hashFn notif.host) with
  | none => left; simp [hft]
  | some e =>
    by_cases he : e < now
    · left; simp [hft, he]
    · right; simp [hft, he]

/-- C3: counterexample.  The claim says that for an unrecognized key
processing stops at classification and no download-tracker row is
created.  In the source classification happens only inside
`countDownload`, *after* the tracker row has been created/updated: a
first notification for `random/unrelated/path` leaves a tracker row
behind. -/
theorem c3_tracker_row_created :
    classifyKey "random/unrelated/path".toList = .unrecognized ∧
    (processNotification (fun ip => ip) 0 ⟨[], [], []⟩
        ⟨"random/unrelated/path".toList, "1.2.3.4".toList⟩).1.trackers ≠ [] := by
  decide

/-- C3 (amended): for an unrecognized key no catalog counter changes and
no exception escapes; when the visit is fresh the key is logged as
unknown, and when it is not fresh nothing is logged — but the dedup
tracker row for `(key, ipHash)` *is* created/updated, with
`expiresAt = now + TRACKING_DURATION`. -/
theorem c3_unrecognized_effects : ∀ (hashFn : List Char → List Char)
    (now : Nat) (st : ServiceState) (notif : Notification),
    classifyKey notif.key = .unrecognized →
    (processNotification hashFn now st notif).1.modVersions = st.modVersions ∧
    (processNotification hashFn now st notif).1.launcherVersions = st.launcherVersions ∧
    findTracker (processNotification hashFn now st notif).1.trackers
        notif.key (hashFn notif.host) = some (now + TRACKING_DURATION) ∧
    ((observe st.trackers notif.key (hashFn notif.host) now).1 = true →
      (processNotification hashFn now st notif).2 = [.unknownFile notif.key]) ∧
    ((observe st.trackers notif.key (hashFn notif.host) now).1 = false →
      (processNotification hashFn now st notif).2 = []) := by
  intro hashFn now st notif hcl
  rcases processNotification_fresh_cases hashFn now st notif with ⟨hfr, h⟩ | ⟨hfr, h⟩
  · rw [h, countDownload_unrecognized _ _ hcl]
    refine ⟨rfl, rfl, observe_expiry _ _ _ _, fun _ => rfl, fun hfalse => ?_⟩
    rw [hfr] at hfalse
    exact Bool.noConfusion hfalse
  · rw [h]
    refine ⟨rfl, rfl, observe_expiry _ _ _ _, fun htrue => ?_, fun _ => rfl⟩
    rw [hfr] at htrue
    exact Bool.noConfusion htrue

/-- C3 witness: at the concrete unrecognized key `random/unrelated/path`
against the empty state, the counters stay untouched, the tracker row
appears with the full window, and (the visit being fresh) the
unknown-file log line is emitted. -/
theorem c3_unrecognized_effects_witness :
    classifyKey "random/unrelated/path".toList = .unrecognized ∧
    ((processNotification (fun ip => ip) 0 ⟨[], [], []⟩
        ⟨"random/unrelated/path".toList, "1.2.3.4".toList⟩).1.modVersions = [] ∧
     (processNotification (fun ip => ip) 0 ⟨[], [], []⟩
        ⟨"random/unrelated/path".toList, "1.2.3.4".toList⟩).1.launcherVersions = [] ∧
     findTracker (processNotification (fun ip => ip) 0 ⟨[], [], []⟩
        ⟨"random/unrelated/path".toList, "1.2.3.4".toList⟩).1.trackers
        "random/unrelated/path".toList ((fun ip => ip) "1.2.3.4".toList) =
       some (0 + TRACKING_DURATION) ∧
     ((observe [] "random/unrelated/path".toList
         ((fun ip => ip) "1.2.3.4".toList) 0).1 = true →
      (processNotification (fun ip => ip) 0 ⟨[], [], []⟩
        ⟨"random/unrelated/path".toList, "1.2.3.4".toList⟩).2 =
          [.unknownFile "random/unrelated/path".toList]) ∧
     ((observe [] "random/unrelated/path".toList
         ((fun ip => ip) "1.2.3.4".toList) 0).1 = false →
      (processNotification (fun ip => ip) 0 ⟨[], [], []⟩
        ⟨"random/unrelated/path".toList, "1.2.3.4".toList⟩).2 = [])) :=
  ⟨by decide,
   c3_unrecognized_effects (fun ip => ip) 0 ⟨[], [], []⟩
     ⟨"random/unrelated/path".toList, "1.2.3.4".toList⟩ (by decide)⟩

/-- C4: classification is total and deterministic (`classifyKey` is a
function), and it characterizes exactly the spec's key shapes: a key
classifies as a mod-version target with slugs `a`, `b` iff it has the
shape `mods/<a>/<b>/<filename>` (slugs 1-64 characters from letters,
digits, dot, hyphen, underscore; filename per the regex `(.+)$`), as a
launcher-version target with slug `v` iff it has the shape
`launcher/<v>/<filename>`, and as unrecognized iff it has neither
shape. -/
theorem c4_classification_correct : ∀ (key : List Char),
    (∀ a b, classifyKey key = .modVersion a b ↔ specModKeyShape key a b) ∧
    (∀ v, classifyKey key = .launcherVersion v ↔ specLauncherKeyShape key v) ∧
    (classifyKey key = .unrecognized ↔
      (∀ a b, ¬ specModKeyShape key a b) ∧ (∀ v, ¬ specLauncherKeyShape key v)) := by
  intro key
  refine ⟨fun a b => ?_, fun v => ?_, ?_⟩
  · rw [classifyKey_mod_iff, matchModVersion_iff]
  · rw [classifyKey_launcher_iff]
    constructor
    · rintro ⟨_, hl⟩
      exact (matchLauncherVersion_iff key v).1 hl
    · intro hs
      exact ⟨specLauncher_matchMod_none key v hs,
        (matchLauncherVersion_iff key v).2 hs⟩
  · rw [classifyKey_unrecognized_iff, matchModVersion_none_iff,
      matchLauncherVersion_none_iff]

/-- C4 witness: the characterization applied at the concrete key
`mods/a/b/c`, whose classification carries exactly the slugs `a`, `b`. -/
theorem c4_classification_correct_witness :
    classifyKey ['m', 'o', 'd', 's', '/', 'a', '/', 'b', '/', 'c'] =
      .modVersion ['a'] ['b'] :=
  ((c4_classification_correct
      ['m', 'o', 'd', 's', '/', 'a', '/', 'b', '/', 'c']).1 ['a'] ['b']).2
    ⟨['c'], by decide, by decide, by decide, by decide⟩

/-- C7: counterexample.  The claim says every storage failure during
per-notification processing — including the tracker-store read — is
caught inside the handler.  `processNotification` has no `try`/`catch`:
a failing `DownloadTracker.findOne` rejects the handler's promise, and
the `notification` listener does not handle that rejection. -/
theorem c7_tracker_failure_escapes :
    processNotificationE ⟨true, false, false, false⟩ (fun ip => ip) 0
      ⟨[], [], []⟩ ⟨['x'], ['h']⟩ = .error .trackerFindOne := rfl

/-- C7 (amended): catalog (counter-update) storage failures are caught
and logged inside the counting routines and never escape the handler —
for any combination of catalog faults the handler resolves — but a
failing tracker-store read always escapes it, and so does a failing
awaited create-path tracker save (the branch where no row existed yet). -/
theorem c7_error_isolation : ∀ (f : Faults) (hashFn : List Char → List Char)
    (now : Nat) (st : ServiceState) (notif : Notification),
    (f.trackerFindOne = false → f.trackerSave = false →
      handlerOk (processNotificationE f hashFn now st notif) = true) ∧
    (f.trackerFindOne = true →
      processNotificationE f hashFn now st notif = .error .trackerFindOne) ∧
    (f.trackerFindOne = false → f.trackerSave = true →
      findTracker st.trackers notif.key (hashFn notif.host) = none →
      processNotificationE f hashFn now st notif = .error .trackerSave) := by
  intro f hashFn now st notif
  refine ⟨?_, ?_, ?_⟩
  · intro h1 h2
    unfold processNotificationE
    rw [h1, h2]
    cases hft : findTracker st.trackers notif.key (hashFn notif.host) with
    | none => simp [hft, handlerOk]
    | some e =>
      by_cases he : e < now <;> simp [hft, he, handlerOk]
  · intro h1
    unfold processNotificationE
    rw [h1]
    simp
  · intro h1 h2 hft
    unfold processNotificationE
    rw [h1, h2]
    simp [hft]

/-- C7 witness: with both catalog reads failing (and the tracker store
healthy) the handler still resolves; with the tracker read failing the
rejection escapes; and with the create-path tracker save failing (no
prior row) the rejection escapes too. -/
theorem c7_error_isolation_witness :
    handlerOk (processNotificationE ⟨false, false, true, true⟩ (fun ip => ip) 0
      ⟨[], [], []⟩ ⟨['x'], ['h']⟩) = true ∧
    processNotificationE ⟨true, false, false, false⟩ (fun ip => ip) 0
      ⟨[], [], []⟩ ⟨['x'], ['h']⟩ = .error .trackerFindOne ∧
    processNotificationE ⟨false, true, false, false⟩ (fun ip => ip) 0
      ⟨[], [], []⟩ ⟨['x'], ['h']⟩ = .error .trackerSave :=
  ⟨(c7_error_isolation ⟨false, false, true, true⟩ (fun ip => ip) 0
      ⟨[], [], []⟩ ⟨['x'], ['h']⟩).1 rfl rfl,
   (c7_error_isolation ⟨true, false, false, false⟩ (fun ip => ip) 0
      ⟨[], [], []⟩ ⟨['x'], ['h']⟩).2.1 rfl,
   (c7_error_isolation ⟨false, true, false, false⟩ (fun ip => ip) 0
      ⟨[], [], []⟩ ⟨['x'], ['h']⟩).2.2 rfl rfl rfl⟩

/-- C10: whenever the handler writes a download-tracker row, the written
`expiresAt` is the handler's observation time plus `TRACKING_DURATION`,
hence strictly in the future at the moment of the write; and the hot
path never deletes a row — every pair present before is present after. -/
theorem c10_tracker_write_invariant : ∀ (hashFn : List Char → List Char)
    (now : Nat) (st : ServiceState) (notif : Notification),
    findTracker (processNotification hashFn now st notif).1.trackers
        notif.key (hashFn notif.host) = some (now + TRACKING_DURATION) ∧
    now < now + TRACKING_DURATION ∧
    (∀ p ih, findTracker st.trackers p ih ≠ none →
      findTracker (processNotification hashFn now st notif).1.trackers p ih ≠ none) := by
  intro hashFn now st notif
  rw [processNotification_trackers]
  refine ⟨findTracker_saveTracker_self _ _ _ _, ?_, ?_⟩
  · unfold TRACKING_DURATION
    omega
  · intro p ih hne
    by_cases h : p = notif.key ∧ ih = hashFn notif.host
    · rw [h.1, h.2, findTracker_saveTracker_self]
      simp
    · rw [findTracker_saveTracker_other _ _ _ _ _ _ h]
      exact hne

/-- C10 witness: a concrete run over a state holding an unrelated pair:
the observed pair's row carries the future expiry and the unrelated row
survives. -/
theorem c10_tracker_write_invariant_witness :
    findTracker (processNotification (fun ip => ip) 7
        ⟨[((['q'], ['h']), 3)], [], []⟩ ⟨['x'], ['h']⟩).1.trackers
        ['x'] ((fun ip => ip) ['h']) = some (7 + TRACKING_DURATION) ∧
    7 < 7 + TRACKING_DURATION ∧
    (∀ p ih, findTracker [((['q'], ['h']), 3)] p ih ≠ none →
      findTracker (processNotification (fun ip => ip) 7
        ⟨[((['q'], ['h']), 3)], [], []⟩ ⟨['x'], ['h']⟩).1.trackers p ih ≠ none) :=
  c10_tracker_write_invariant (fun ip => ip) 7 ⟨[((['q'], ['h']), 3)], [], []⟩
    ⟨['x'], ['h']⟩

end SOTF
